import Mathlib

/-!
Shallow embedding of the rimori-org/playwright-testing core:
the Mock Resolution Engine (`handleRoute` and friends in
`src/core/RimoriTestEnvironment.ts`), the Settings State Source
(`SettingsStateManager`), and the Message Channel Simulator
(`MessageChannelSimulator`).
-/

namespace Rimori

/-- JSON values, modelling the `unknown` payloads flowing through the mocks. -/
inductive Json where
  | null : Json
  | bool : Bool → Json
  | num : Int → Json
  | str : String → Json
  | arr : List Json → Json
  | obj : List (String × Json) → Json
deriving Repr, Inhabited

/-- Lower-case hex digit, used for JSON control-character escapes. -/
def hexDigit (n : Nat) : String :=
  if n < 10 then String.singleton (Char.ofNat (48 + n))
  else String.singleton (Char.ofNat (87 + n))

/-- Escape of one character inside a JSON string literal
(the behaviour of JavaScript `JSON.stringify`). -/
def escChar (c : Char) : String :=
  if c = '"' then "\\\""
  else if c = '\\' then "\\\\"
  else if c = '\n' then "\\n"
  else if c = '\r' then "\\r"
  else if c = '\t' then "\\t"
  else if c.toNat = 8 then "\\b"
  else if c.toNat = 12 then "\\f"
  else if c.toNat < 32 then "\\u00" ++ hexDigit (c.toNat / 16) ++ hexDigit (c.toNat % 16)
  else String.singleton c

/-- JSON string literal: quotes around the escaped characters. -/
def quoteStr (s : String) : String :=
  "\"" ++ String.join (s.toList.map escChar) ++ "\""

mutual
/-- Model of JavaScript `JSON.stringify` on the `Json` values above. -/
def Json.stringify : Json → String
  | .null => "null"
  | .bool b => cond b "true" "false"
  | .num n => toString n
  | .str s => quoteStr s
  | .arr xs => "[" ++ stringifyArr xs ++ "]"
  | .obj fs => "\x7b" ++ stringifyObj fs ++ "\x7d"

/-- Comma-separated serialization of a JSON array's elements. -/
def stringifyArr : List Json → String
  | [] => ""
  | [x] => Json.stringify x
  | x :: y :: xs => Json.stringify x ++ "," ++ stringifyArr (y :: xs)

/-- Comma-separated serialization of a JSON object's fields. -/
def stringifyObj : List (String × Json) → String
  | [] => ""
  | [(k, v)] => quoteStr k ++ ":" ++ Json.stringify v
  | (k, v) :: f :: fs => quoteStr k ++ ":" ++ Json.stringify v ++ "," ++ stringifyObj (f :: fs)
end

/-! ## Mock Resolution Engine data model (`RimoriTestEnvironment.ts`) -/

/-- HTTP methods supported by the mock table. -/
inductive HttpMethod where
  | GET | POST | PUT | PATCH | DELETE
deriving Repr, DecidableEq

/-- String form of a method, as used inside a route key. -/
def HttpMethod.toStr : HttpMethod → String
  | .GET => "GET"
  | .POST => "POST"
  | .PUT => "PUT"
  | .PATCH => "PATCH"
  | .DELETE => "DELETE"

/-- An intercepted request. The URL is kept structured: `origin` and `path`
are what `normalizeUrl` keeps, `search` is the query/fragment part that it
strips. `body` is the parsed post data, when any. -/
structure Req where
  method : HttpMethod
  origin : String
  path : String
  search : String := ""
  body : Option Json := none

/-- Model of `normalizeUrl`: origin plus pathname, query and fragment stripped. -/
def normalizeUrl (r : Req) : String := r.origin ++ r.path

/-- Model of `createRouteKey`: `"{METHOD} {normalized url}"`. -/
def createRouteKey (r : Req) : String := r.method.toStr ++ " " ++ normalizeUrl r

/-- A matcher is a predicate over the request; `none` models the matcher
throwing an exception (caught and treated as no match by the engine). -/
def Matcher := Req → Option Bool

/-- Model of `MockOptions` from `RimoriTestEnvironment.ts`. Every field is optional
there; `matcher` carries the predicate, `once` the one-shot flag, `error`
the simulated network-failure category. -/
structure MockOptions where
  error : Option String := none
  delay : Option Nat := none
  matcher : Option Matcher := none
  method : Option HttpMethod := none
  once : Option Bool := none

/-- A mock value: a static payload or a function of the request. -/
inductive MockValue where
  | static (v : Json)
  | computed (f : Req → Json)

/-- Model of `MockRecord`: one registered response definition. -/
structure MockRecord where
  value : MockValue
  method : HttpMethod
  options : Option MockOptions := none
  isStreaming : Bool := false

/-- The matcher of a record, reading through the optional `options`
(`mock.options?.matcher`). -/
def MockRecord.matcherOf (m : MockRecord) : Option Matcher :=
  m.options.bind (·.matcher)

/-- Whether a record is one-shot (`mock.options?.once`). -/
def MockRecord.onceOf (m : MockRecord) : Bool :=
  ((m.options.bind (·.once)).getD false)

/-- The simulated error category of a record (`options?.error`). -/
def MockRecord.errorOf (m : MockRecord) : Option String :=
  m.options.bind (·.error)

/-- Outcome of handling one intercepted request: a thrown error (the
`throw new Error(...)` path), an abort with a named network-error
category (`route.abort(...)`), or a fulfilled response
(`route.fulfill({status, headers?, body})`, the middle component being the
`Content-Type` header when one is set). -/
inductive Outcome where
  | thrown (msg : String)
  | aborted (code : String)
  | fulfilled (status : Nat) (contentType : Option String) (body : String)
deriving Repr, DecidableEq

/-- Whether the outcome is a fulfilled response (not a hard failure). -/
def Outcome.isFulfilled : Outcome → Bool
  | .fulfilled _ _ _ => true
  | _ => false

/-- The selection loop of `handleRoute`, translated record by record.
`i` is the index of the head of the remaining list in the full bucket and
`fb` the fallback candidate seen so far (`fallbackMock` with its index).
Returns the matching record (the loop breaks at the first record whose
matcher returns `true`; a throwing matcher is caught and skipped), the
fallback candidate, and the trace of records whose matcher was invoked,
in invocation order. -/
def scanMocks (req : Req) :
    List MockRecord → Nat → Option (Nat × MockRecord) →
    Option (Nat × MockRecord) × Option (Nat × MockRecord) × List MockRecord
  | [], _, fb => (none, fb, [])
  | m :: rest, i, fb =>
    match m.matcherOf with
    | some f =>
      if f req = some true then (some (i, m), fb, [m])
      else
        let (w, fb', tr) := scanMocks req rest (i + 1) fb
        (w, fb', m :: tr)
    | none =>
      match fb with
      | some _ => scanMocks req rest (i + 1) fb
      | none => scanMocks req rest (i + 1) (some (i, m))

/-- The winner of the selection: `matchingMock ?? fallbackMock`,
with its index in the bucket. -/
def selectMockIdx (mocks : List MockRecord) (req : Req) : Option (Nat × MockRecord) :=
  let (w, fb, _) := scanMocks req mocks 0 none
  match w with
  | some x => some x
  | none => fb

/-- The winning record of the selection, without its index. -/
def selectMock (mocks : List MockRecord) (req : Req) : Option MockRecord :=
  (selectMockIdx mocks req).map (·.2)

/-- The records whose matcher was invoked during selection, in order. -/
def invokedMatchers (mocks : List MockRecord) (req : Req) : List MockRecord :=
  (scanMocks req mocks 0 none).2.2

/-- Resolution of the mock value: a callable value is invoked with the
request, a static one is used verbatim. -/
def resolveValue : MockValue → Req → Json
  | .static v, _ => v
  | .computed f, r => f r

/-- Model of `formatAsSSE`: the event-stream body built for a streaming string
value — a `start` event, a `text-start` event, one `text-delta` event per
character, a `text-end` event, a `finish` event and the `[DONE]` marker. -/
def formatAsSSE (text : String) : String :=
  let chunks : List String :=
    ["data: " ++ Json.stringify (.obj [("type", .str "start")]) ++ "\n\n",
     "data: " ++ Json.stringify (.obj [("type", .str "text-start"), ("id", .str "1")]) ++ "\n\n"]
    ++ text.toList.map (fun c =>
        "data: " ++ Json.stringify (.obj [("type", .str "text-delta"),
          ("delta", .str (String.singleton c))]) ++ "\n\n")
    ++ ["data: " ++ Json.stringify (.obj [("type", .str "text-end"), ("id", .str "1")]) ++ "\n\n",
        "data: " ++ Json.stringify (.obj [("type", .str "finish")]) ++ "\n\n",
        "data: [DONE]\n\n"]
  String.join chunks

/-- Whether a JSON value is a string (`typeof responseValue === 'string'`). -/
def Json.isStr : Json → Bool
  | .str _ => true
  | _ => false

/-- The string payload of a JSON string value. -/
def Json.asStr : Json → String
  | .str s => s
  | _ => ""

/-- Response computed for the winning record, after the one-time removal:
abort on `options.error`; otherwise resolve the value; a streaming record
with a string value is fulfilled as an event stream, anything else as a
plain JSON body with status 200 and no content-type header. -/
def respondWith (m : MockRecord) (req : Req) : Outcome :=
  match m.errorOf with
  | some e => .aborted e
  | none =>
    let v := resolveValue m.value req
    if m.isStreaming && v.isStr then
      .fulfilled 200 (some "text/event-stream") (formatAsSSE v.asStr)
    else
      .fulfilled 200 none (Json.stringify v)

/-- Handling of one request against one (non-empty) bucket: select the
winner, remove it when one-shot (`removeOneTimeMock` splices it out at its
own position, before the response is produced), then compute the outcome.
Returns the outcome and the bucket as left behind. -/
def handleBucket (mocks : List MockRecord) (req : Req) : Outcome × List MockRecord :=
  match selectMockIdx mocks req with
  | none => (.aborted "not_found", mocks)
  | some (i, m) =>
    let mocks' := if m.onceOf then mocks.eraseIdx i else mocks
    (respondWith m req, mocks')

/-- Route tables (`Record<string, MockRecord[]>`) as association lists
keyed by route key. -/
def RouteTable := List (String × List MockRecord)

/-- Lookup in an association list (`routes[routeKey]`). -/
def lookupA {α : Type} (l : List (String × α)) (k : String) : Option α :=
  (l.find? (fun p => p.1 == k)).map (·.2)

/-- Update of an association list under a key, keeping its position
(mutating the stored array in place, as the engine does). -/
def setA {α : Type} : List (String × α) → String → α → List (String × α)
  | [], k, v => [(k, v)]
  | (k', v') :: rest, k, v =>
    if k' == k then (k, v) :: rest else (k', v') :: setA rest k v

/-- Removal of the entry under a key from an association list. -/
def removeA {α : Type} : List (String × α) → String → List (String × α)
  | [], _ => []
  | (k', v') :: rest, k =>
    if k' == k then rest else (k', v') :: removeA rest k

/-- Model of `handleRoute`: compute the route key, fetch the bucket; a missing or
empty bucket throws `No route handler found`; otherwise resolve against
the bucket and store back the (possibly consumed) bucket. -/
def handleRoute (routes : RouteTable) (req : Req) : Outcome × RouteTable :=
  let key := createRouteKey req
  match lookupA routes key with
  | none => (.thrown ("No route handler found for route: " ++ key), routes)
  | some mocks =>
    if mocks.isEmpty then
      (.thrown ("No route handler found for route: " ++ key), routes)
    else
      let (o, mocks') := handleBucket mocks req
      (o, setA routes key mocks')

/-- A sequence of `n` identical requests, threading the route table. -/
def runSeq : Nat → RouteTable → Req → List Outcome × RouteTable
  | 0, routes, _ => ([], routes)
  | n + 1, routes, req =>
    let (o, r') := handleRoute routes req
    let (os, r'') := runSeq n r' req
    (o :: os, r'')

/-! ## Settings State Source (`SettingsStateManager`) -/

/-- Model of `PluginSettings`: every field is optional in the TypeScript interface,
so each is an `Option` here (`none` = key absent). `user_id` may be absent,
a string, or `null`, hence the nested `Option`. -/
structure PluginSettings where
  id : Option String := none
  plugin_id : Option String := none
  guild_id : Option String := none
  settings : Option (List (String × Json)) := none
  is_guild_setting : Option Bool := none
  user_id : Option (Option String) := none

/-- JavaScript object spread `{...a, ...b}`: every key present in `b`
overrides the one in `a` (shallow merge). -/
def spreadSettings (a b : PluginSettings) : PluginSettings where
  id := b.id.orElse fun _ => a.id
  plugin_id := b.plugin_id.orElse fun _ => a.plugin_id
  guild_id := b.guild_id.orElse fun _ => a.guild_id
  settings := b.settings.orElse fun _ => a.settings
  is_guild_setting := b.is_guild_setting.orElse fun _ => a.is_guild_setting
  user_id := b.user_id.orElse fun _ => a.user_id

/-- The manager state: `settings: PluginSettings | null`. -/
def SettingsState := Option PluginSettings

/-- The `SettingsStateManager` constructor: it always builds a record,
defaulting each missing field (`initialSettings?.f ?? default`). -/
def constructSettings (initial : Option PluginSettings) (pluginId guildId : String) :
    SettingsState :=
  some
    { id := some ((initial.bind (·.id)).getD "settings-id")
      plugin_id := some ((initial.bind (·.plugin_id)).getD pluginId)
      guild_id := some ((initial.bind (·.guild_id)).getD guildId)
      settings := some ((initial.bind (·.settings)).getD [])
      is_guild_setting := some ((initial.bind (·.is_guild_setting)).getD false)
      user_id := some ((initial.bind (·.user_id)).getD none) }

/-- Model of `getSettings()`: returns the current state unchanged. -/
def getSettings (st : SettingsState) : Option PluginSettings := st

/-- Model of `updateSettings(updates)`: on a null state return `[]`; otherwise merge
and re-assert the identity fields, returning the one-element array and the
new state. -/
def updateSettings (st : SettingsState) (updates : PluginSettings) :
    List PluginSettings × SettingsState :=
  match st with
  | none => ([], none)
  | some cur =>
    let merged := spreadSettings cur updates
    let merged := { merged with
      id := cur.id, plugin_id := cur.plugin_id, guild_id := cur.guild_id }
    ([merged], some merged)

/-- Model of `insertSettings(newSettings)`: `{...this.settings, ...newSettings}` —
merge into the current state (spreading `null` contributes nothing) and
return the new record directly. No field is protected. -/
def insertSettings (st : SettingsState) (newSettings : PluginSettings) :
    PluginSettings × SettingsState :=
  let merged :=
    match st with
    | some cur => spreadSettings cur newSettings
    | none => newSettings
  (merged, some merged)

/-- Model of `setSettings(value|null)`: direct override. -/
def setSettingsState (_ : SettingsState) (v : Option PluginSettings) : SettingsState := v

/-! ## Message Channel Simulator (`MessageChannelSimulator.ts`) -/

/-- An outbound event message as built by `emit` (timestamp and the random
`eventId` omitted: they carry no information the claims depend on). -/
structure OutMsg where
  topic : String
  data : Json
  sender : String
deriving Repr

/-- Readiness / queueing state of the simulator: the `isReady` flag, the
pending-outbound queue, and the list of messages handed to the channel
(`sendToPlugin`), in delivery order. -/
structure ChanState where
  ready : Bool := false
  pending : List OutMsg := []
  sent : List OutMsg := []

/-- Model of `emit(topic, data, sender)`: build the message; queue it while the
simulator is not ready, otherwise send it at once. -/
def emitMsg (st : ChanState) (topic : String) (data : Json) (sender : String) : ChanState :=
  let m : OutMsg := ⟨topic, data, sender⟩
  if st.ready then { st with sent := st.sent ++ [m] }
  else { st with pending := st.pending ++ [m] }

/-- Model of `setupMessageChannel` followed by `flushPending`: a no-op when already
ready; otherwise become ready and send every queued message, in order. -/
def setupChannel (st : ChanState) : ChanState :=
  if st.ready then st
  else { ready := true, pending := [], sent := st.sent ++ st.pending }

/-- An inbound event from the plugin (`EventBusMessage`), with the
request/response `eventId` when there is one. The engine tests the id for
JavaScript truthiness, so `some 0` behaves like `none`. -/
structure InMsg where
  topic : String
  data : Json := .null
  eventId : Option Nat := none

/-- A registered auto-responder: persistent (`respond`) or one-shot
(`respondOnce`). Both wrap a value or function into a function of the
triggering event. -/
inductive Responder where
  | persistentR (f : InMsg → Json)
  | onceR (f : InMsg → Json)

/-- Simulator dispatch state: listeners per topic (a JavaScript `Set`,
insertion-ordered and deduplicated by reference — handlers are identified
by reference ids), auto-responders per topic, the log of listener
invocations and the correlated responses sent back. -/
structure SimState where
  listeners : List (String × List Nat) := []
  responders : List (String × Responder) := []
  invoked : List Nat := []
  responses : List (Nat × String × Json) := []

/-- The constructor state: `registerAutoResponders` pre-registers the three
built-in persistent responders, parametrized by the session snapshots they
return. -/
def initSimState (info userInfo : Json) : SimState :=
  { responders :=
      [("global.supabase.requestAccess", .persistentR fun _ => info),
       ("global.profile.requestUserInfo", .persistentR fun _ => userInfo),
       ("global.profile.getUserInfo", .persistentR fun _ => userInfo)] }

/-- Model of `on(topic, handler)`: add the handler to the topic's set (a `Set`
ignores a re-added element and keeps insertion order). -/
def onReg (st : SimState) (topic : String) (h : Nat) : SimState :=
  let cur := (lookupA st.listeners topic).getD []
  let cur' := if h ∈ cur then cur else cur ++ [h]
  { st with listeners := setA st.listeners topic cur' }

/-- The unsubscribe closure returned by `on`: delete the handler from the
topic's set and drop the topic once the set is empty. -/
def unsubscribe (st : SimState) (topic : String) (h : Nat) : SimState :=
  match lookupA st.listeners topic with
  | none => st
  | some cur =>
    let cur' := cur.erase h
    if cur'.isEmpty then { st with listeners := removeA st.listeners topic }
    else { st with listeners := setA st.listeners topic cur' }

/-- Model of `respond(topic, value|fn)`: register (replacing any previous responder
for the topic) a persistent responder. -/
def registerRespond (st : SimState) (topic : String) (f : InMsg → Json) : SimState :=
  { st with responders := setA st.responders topic (.persistentR f) }

/-- The remove closure returned by `respond`: delete the topic's responder. -/
def removeRespond (st : SimState) (topic : String) : SimState :=
  { st with responders := removeA st.responders topic }

/-- Model of `respondOnce(topic, value|fn)`: register (replacing any previous
responder for the topic) a one-shot responder. -/
def registerRespondOnce (st : SimState) (topic : String) (f : InMsg → Json) : SimState :=
  { st with responders := setA st.responders topic (.onceR f) }

/-- Model of `dispatchEvent`: invoke every listener registered for the topic, in
registration order (none registered: log and return). -/
def dispatchEvent (st : SimState) (e : InMsg) : SimState :=
  match lookupA st.listeners e.topic with
  | none => st
  | some hs => if hs.isEmpty then st else { st with invoked := st.invoked ++ hs }

/-- Model of `maybeRespond`: nothing without a (truthy) `eventId`; otherwise invoke
the topic's responder when one is registered — a one-shot responder removes
itself on this first use — and send back the correlated response. -/
def maybeRespond (st : SimState) (e : InMsg) : SimState :=
  match e.eventId with
  | none => st
  | some id =>
    if id = 0 then st
    else
      match lookupA st.responders e.topic with
      | none => st
      | some (.persistentR f) =>
        { st with responses := st.responses ++ [(id, e.topic, f e)] }
      | some (.onceR f) =>
        { st with
          responders := removeA st.responders e.topic
          responses := st.responses ++ [(id, e.topic, f e)] }

/-- Model of `handlePortMessage` on an event payload: dispatch to the listeners,
then run the auto-responder correlation. -/
def handleInbound (st : SimState) (e : InMsg) : SimState :=
  maybeRespond (dispatchEvent st e) e

/-- A whole inbound trace, processed in order. -/
def handleAll (st : SimState) (events : List InMsg) : SimState :=
  events.foldl handleInbound st

/-! ## Spec-side characterizations used by the theorems -/

/-- A record bearing a matcher that returns `true` on the request. -/
def hasTrueMatcher (req : Req) (m : MockRecord) : Bool :=
  match m.matcherOf with
  | some f => if f req = some true then true else false
  | none => false

/-- A matcher-less record (a fallback candidate). -/
def isFallbackRec (m : MockRecord) : Bool :=
  m.matcherOf.isNone

/-- The `a ?? b` operator on options. -/
def orO {α : Type} (a b : Option α) : Option α :=
  match a with
  | some x => some x
  | none => b

/-- The prefix of the bucket up to and including the first record whose
matcher returns `true` (the whole bucket when none does). -/
def takeToFirstMatch (req : Req) : List MockRecord → List MockRecord
  | [] => []
  | m :: rest =>
    if hasTrueMatcher req m then [m] else m :: takeToFirstMatch req rest

/-- The matcher-bearing records the engine is expected to consult:
those in the bucket up to and including the winner (short-circuit). -/
def specInvoked (mocks : List MockRecord) (req : Req) : List MockRecord :=
  (takeToFirstMatch req mocks).filter (fun m => m.matcherOf.isSome)

theorem scanMocks_fst (req : Req) (mocks : List MockRecord) :
    ∀ (i : Nat) (fb : Option (Nat × MockRecord)),
      ((scanMocks req mocks i fb).1).map (·.2) = mocks.find? (hasTrueMatcher req) := by
  induction mocks with
  | nil => intro i fb; simp [scanMocks]
  | cons m rest ih =>
    intro i fb
    cases hm : m.matcherOf with
    | some f =>
      by_cases h : f req = some true
      · simp [scanMocks, hm, h, List.find?, hasTrueMatcher]
      · simp only [scanMocks, hm, h, if_false]
        have := ih (i + 1) fb
        simp only [List.find?, hasTrueMatcher, hm, h]
        simpa using this
    | none =>
      cases fb with
      | none =>
        simp only [scanMocks, hm]
        have := ih (i + 1) (some (i, m))
        simp only [List.find?, hasTrueMatcher, hm]
        simpa using this
      | some x =>
        simp only [scanMocks, hm]
        have := ih (i + 1) (some x)
        simp only [List.find?, hasTrueMatcher, hm]
        simpa using this

theorem scanMocks_snd (req : Req) (mocks : List MockRecord) :
    ∀ (i : Nat) (fb : Option (Nat × MockRecord)),
      (scanMocks req mocks i fb).1 = none →
      ((scanMocks req mocks i fb).2.1).map (·.2)
        = orO (fb.map (·.2)) (mocks.find? isFallbackRec) := by
  induction mocks with
  | nil => intro i fb _; cases fb <;> simp [scanMocks, orO]
  | cons m rest ih =>
    intro i fb hnone
    cases hm : m.matcherOf with
    | some f =>
      by_cases h : f req = some true
      · simp only [scanMocks, hm] at hnone; simp [h] at hnone
      · simp only [scanMocks, hm] at hnone ⊢
        simp only [h, if_false] at hnone ⊢
        have := ih (i + 1) fb (by
          rcases heq : scanMocks req rest (i + 1) fb with ⟨w, fb', tr⟩
          rw [heq] at hnone; simpa using hnone)
        simp only [List.find?, isFallbackRec, hm, Option.isNone]
        rcases heq : scanMocks req rest (i + 1) fb with ⟨w, fb', tr⟩
        rw [heq] at this
        exact this
    | none =>
      simp only [scanMocks, hm] at hnone ⊢
      cases fb with
      | none =>
        have := ih (i + 1) (some (i, m)) hnone
        simp only [List.find?, isFallbackRec, hm, Option.isNone]
        simpa [orO] using this
      | some x =>
        have := ih (i + 1) (some x) hnone
        simp only [List.find?, isFallbackRec, hm, Option.isNone]
        simpa [orO] using this

theorem scanMocks_trace (req : Req) (mocks : List MockRecord) :
    ∀ (i : Nat) (fb : Option (Nat × MockRecord)),
      (scanMocks req mocks i fb).2.2 = specInvoked mocks req := by
  induction mocks with
  | nil => intro i fb; simp [scanMocks, specInvoked, takeToFirstMatch]
  | cons m rest ih =>
    intro i fb
    cases hm : m.matcherOf with
    | some f =>
      by_cases h : f req = some true
      · simp [scanMocks, hm, h, specInvoked, takeToFirstMatch, hasTrueMatcher]
      · simp only [scanMocks, hm, h, if_false]
        have := ih (i + 1) fb
        simp only [specInvoked, takeToFirstMatch, hasTrueMatcher, hm, h, if_false,
          List.filter]
        rcases heq : scanMocks req rest (i + 1) fb with ⟨w, fb', tr⟩
        rw [heq] at this
        simp only [Option.isSome] at *
        simpa [specInvoked] using this
    | none =>
      have hfb : ∀ fb', (scanMocks req (m :: rest) i fb').2.2
          = (scanMocks req rest (i + 1)
              (match fb' with
               | some x => some x
               | none => some (i, m))).2.2 := by
        intro fb'; cases fb' <;> simp [scanMocks, hm]
      rw [hfb fb]
      have h1 := ih (i + 1) (match fb with
        | some x => some x
        | none => some (i, m))
      rw [h1]
      simp [specInvoked, takeToFirstMatch, hasTrueMatcher, hm, List.filter,
        Option.isSome]

/-! ## C1 — first-match-wins resolution -/

/-- C1: for every route bucket and intercepted request the engine selects
as winner the first record in registration order whose matcher returns
`true` (so when two records would both match, the earlier-registered one
wins); when no matcher-bearing record matches, the first matcher-less
record — the fallback candidate — becomes the winner; and the scan is
short-circuited: the matchers consulted are exactly those of the
matcher-bearing records up to and including the winner. -/
theorem first_match_wins_selection (mocks : List MockRecord) (req : Req) :
    selectMock mocks req
      = orO (mocks.find? (hasTrueMatcher req)) (mocks.find? isFallbackRec)
    ∧ invokedMatchers mocks req = specInvoked mocks req := by
  rcases heq : scanMocks req mocks 0 none with ⟨w, fb, tr⟩
  have h1 := scanMocks_fst req mocks 0 none
  have h3 := scanMocks_trace req mocks 0 none
  rw [heq] at h1 h3
  constructor
  · unfold selectMock selectMockIdx
    rw [heq]
    cases w with
    | some x =>
      simp only [Option.map_some'] at h1
      simp [← h1, orO]
    | none =>
      have h2 := scanMocks_snd req mocks 0 none (by rw [heq])
      rw [heq] at h2
      simp only [Option.map_none'] at h1
      simp only [Option.map_none', orO] at h2
      simp [← h1, orO, h2]
  · unfold invokedMatchers
    rw [heq]
    exact h3

/-! ## C2 — one-shot mocks -/

/-- A one-shot record: matcher `f`, static value `v`, optional delay. -/
def mkOnceRec (f : Matcher) (v : Json) (d : Option Nat) (meth : HttpMethod) : MockRecord :=
  { value := .static v
    method := meth
    options := some { matcher := some f, once := some true, delay := d }
    isStreaming := false }

theorem runSeq_emptyBucket (n : Nat) (req : Req) :
    runSeq n [(createRouteKey req, [])] req
      = (List.replicate n
           (Outcome.thrown ("No route handler found for route: " ++ createRouteKey req)),
         [(createRouteKey req, [])]) := by
  induction n with
  | zero => simp [runSeq]
  | succ k ih =>
    simp [runSeq, handleRoute, lookupA, List.find?, List.isEmpty, ih,
      List.replicate_succ]

/-- C2 (amended): a bucket holding exactly the one-shot record whose
matcher accepts the request serves it on the first request — the record is
consumed, leaving the bucket empty — and every subsequent identical
request fails hard with the `No route handler found` thrown failure (the
emptied bucket takes the same path as a missing one), not with the
`no matching mock` abort. -/
theorem once_mock_consumed (n : Nat) (f : Matcher) (v : Json) (req : Req)
    (d : Option Nat) (hf : f req = some true) :
    runSeq (n + 1) [(createRouteKey req, [mkOnceRec f v d req.method])] req
      = (Outcome.fulfilled 200 none (Json.stringify v)
           :: List.replicate n
                (Outcome.thrown ("No route handler found for route: " ++ createRouteKey req)),
         [(createRouteKey req, [])]) := by
  have h1 : handleRoute [(createRouteKey req, [mkOnceRec f v d req.method])] req
      = (Outcome.fulfilled 200 none (Json.stringify v), [(createRouteKey req, [])]) := by
    simp [handleRoute, lookupA, List.find?, List.isEmpty, handleBucket,
      selectMockIdx, scanMocks, mkOnceRec, MockRecord.matcherOf, hf,
      MockRecord.onceOf, MockRecord.errorOf, respondWith, resolveValue,
      List.eraseIdx, setA]
  simp [runSeq, h1, runSeq_emptyBucket n req]

/-- Concrete request used by the closed-form counterexamples. -/
def reqLlm : Req :=
  { method := .POST, origin := "http://localhost:3501", path := "/ai/llm-object" }

/-- A concrete one-shot record whose matcher always accepts. -/
def onceRecC : MockRecord :=
  { value := .static (.str "ok")
    method := .POST
    options := some { matcher := some fun _ => some true, once := some true } }

/-- C2 counterexample: with a bucket holding exactly one one-shot record
(and no fallback), the second of two identical requests fails with the
thrown `No route handler found` failure, not the `no matching mock`
(`not_found` abort) failure the claim names. -/
theorem once_mock_second_request_counterexample :
    (runSeq 2 [(createRouteKey reqLlm, [onceRecC])] reqLlm).1
      = [Outcome.fulfilled 200 none "\"ok\"",
         Outcome.thrown "No route handler found for route: POST http://localhost:3501/ai/llm-object"]
    ∧ (Outcome.thrown "No route handler found for route: POST http://localhost:3501/ai/llm-object"
        == Outcome.aborted "not_found") = false := by
  decide

/-- Witness for `once_mock_consumed` at a concrete input. -/
theorem once_mock_consumed_witness :
    (fun _ => some true : Matcher) reqLlm = some true
    ∧ runSeq 2 [(createRouteKey reqLlm, [mkOnceRec (fun _ => some true) (.num 7) none reqLlm.method])] reqLlm
      = (Outcome.fulfilled 200 none (Json.stringify (.num 7))
           :: List.replicate 1
                (Outcome.thrown ("No route handler found for route: " ++ createRouteKey reqLlm)),
         [(createRouteKey reqLlm, [])]) :=
  ⟨rfl, once_mock_consumed 1 (fun _ => some true) (.num 7) reqLlm none rfl⟩

/-! ## C3 — matcher request view -/

/-- Field access on a JSON object value. -/
def getField (j : Json) (k : String) : Option Json :=
  match j with
  | .obj fs => (fs.find? (fun p => p.1 == k)).map (·.2)
  | _ => none

/-- The `instructions` field of the parsed request body, when it is a
string — what a test-style matcher reads off `request.postDataJSON()`. -/
def bodyInstructions (r : Req) : Option String :=
  match r.body with
  | some b =>
    match getField b "instructions" with
    | some (.str s) => some s
    | _ => none
  | none => none

/-- Substring test on character lists. -/
def containsSub (s sub : List Char) : Bool :=
  match s with
  | [] => sub.isEmpty
  | _ :: rest => sub.isPrefixOf s || containsSub rest sub

/-- Substring test on strings (`String.prototype.includes`). -/
def strContains (s sub : String) : Bool :=
  containsSub s.toList sub.toList

/-- The scenario's first record: matcher testing for substring `lookup`
in the instructions field. -/
def llmRec1 : MockRecord :=
  { value := .static (.str "lookup-result")
    method := .POST
    options := some
      { matcher := some fun r => some (strContains ((bodyInstructions r).getD "") "lookup") } }

/-- The scenario's second record: matcher testing for substring
`example` in the instructions field. -/
def llmRec2 : MockRecord :=
  { value := .static (.str "example-result")
    method := .POST
    options := some
      { matcher := some fun r => some (strContains ((bodyInstructions r).getD "") "example") } }

/-- The scenario request: a structured multi-message body whose contents
concatenate to `please look up this word`, with no legacy `instructions`
field. -/
def reqMessages : Req :=
  { method := .POST
    origin := "http://localhost:3501"
    path := "/llm"
    body := some (.obj
      [("messages", .arr
        [.obj [("role", .str "user"), ("content", .str "please look up")],
         .obj [("role", .str "user"), ("content", .str "this word")]])]) }

/-- The same route with the legacy single-instruction body shape. -/
def reqLegacy : Req :=
  { method := .POST
    origin := "http://localhost:3501"
    path := "/llm"
    body := some (.obj [("instructions", .str "please lookup this word")]) }

/-- C3 counterexample: the engine hands matchers the raw request — no
legacy `instructions` field is synthesized from the message list — so on
the message-list request neither matcher fires and resolution aborts,
instead of resolving to the first record's value as claimed. -/
theorem matcher_view_counterexample :
    (handleBucket [llmRec1, llmRec2] reqMessages).1 = Outcome.aborted "not_found"
    ∧ (Outcome.aborted "not_found"
        == Outcome.fulfilled 200 none (Json.stringify (.str "lookup-result"))) = false := by
  decide

/-- C3 (amended): matchers are invoked on the raw request and no legacy
field is synthesized: the message-list request matches neither record and
aborts as `not_found`, while the matchers do observe an `instructions`
field carried by the raw body itself, in which case the first record in
registration order wins. -/
theorem matcher_raw_request_view :
    (handleBucket [llmRec1, llmRec2] reqMessages).1 = Outcome.aborted "not_found"
    ∧ (handleBucket [llmRec1, llmRec2] reqLegacy).1
        = Outcome.fulfilled 200 none (Json.stringify (.str "lookup-result")) := by
  decide

/-! ## C4 — streaming response format -/

/-- The events of the event-stream body, spec side. -/
inductive SSEvent where
  | start
  | textStart
  | textDelta (c : Char)
  | textEnd
  | finish
  | done
deriving Repr, DecidableEq

/-- The serialized chunk of one event. -/
def sseRender : SSEvent → String
  | .start => "data: " ++ Json.stringify (.obj [("type", .str "start")]) ++ "\n\n"
  | .textStart =>
      "data: " ++ Json.stringify (.obj [("type", .str "text-start"), ("id", .str "1")]) ++ "\n\n"
  | .textDelta c =>
      "data: " ++ Json.stringify (.obj [("type", .str "text-delta"),
        ("delta", .str (String.singleton c))]) ++ "\n\n"
  | .textEnd =>
      "data: " ++ Json.stringify (.obj [("type", .str "text-end"), ("id", .str "1")]) ++ "\n\n"
  | .finish => "data: " ++ Json.stringify (.obj [("type", .str "finish")]) ++ "\n\n"
  | .done => "data: [DONE]\n\n"

/-- The event sequence the spec prescribes for a streamed string. -/
def sseEventList (s : String) : List SSEvent :=
  [.start, .textStart] ++ s.toList.map .textDelta ++ [.textEnd, .finish, .done]

/-- Text-delta event test. -/
def isTextDelta : SSEvent → Bool
  | .textDelta _ => true
  | _ => false

/-- A streaming record with a static value and no options. -/
def streamRec (v : Json) : MockRecord :=
  { value := .static v, method := .POST, options := none, isStreaming := true }

theorem filter_delta_map (cs : List Char) :
    (cs.map SSEvent.textDelta).filter isTextDelta = cs.map SSEvent.textDelta := by
  induction cs with
  | nil => rfl
  | cons c cs ih => simp [List.filter, isTextDelta, ih]

theorem filter_nondelta_map (cs : List Char) :
    (cs.map SSEvent.textDelta).filter (fun e => !isTextDelta e) = [] := by
  induction cs with
  | nil => rfl
  | cons c cs ih => simp [List.filter, isTextDelta, ih]

/-- C4 (amended): a winning streaming record whose value resolves to a
string of length K is fulfilled as an event stream whose body is exactly
the serialization of `start`, `text-start`, the K per-character
`text-delta` events in order, `text-end`, `finish` and the `[DONE]`
sentinel, with the event-stream content type, regardless of the
characters; a streaming record whose value is not a string instead falls
through to the regular JSON response — status 200, no content-type
header, the bare JSON-encoded value and no `[DONE]` sentinel. -/
theorem streaming_format_law (s : String) (j : Json) (req : Req)
    (hj : j.isStr = false) :
    (handleBucket [streamRec (.str s)] req).1
        = Outcome.fulfilled 200 (some "text/event-stream") (formatAsSSE s)
    ∧ formatAsSSE s = String.join ((sseEventList s).map sseRender)
    ∧ ((sseEventList s).filter isTextDelta).length = s.length
    ∧ (sseEventList s).filter (fun e => !isTextDelta e)
        = [.start, .textStart, .textEnd, .finish, .done]
    ∧ (handleBucket [streamRec j] req).1
        = Outcome.fulfilled 200 none (Json.stringify j) := by
  refine ⟨?_, ?_, ?_, ?_, ?_⟩
  · simp [handleBucket, selectMockIdx, scanMocks, streamRec, MockRecord.matcherOf,
      MockRecord.onceOf, MockRecord.errorOf, respondWith, resolveValue, Json.isStr,
      Json.asStr]
  · simp only [formatAsSSE, sseEventList, sseRender, List.map_append, List.map_map,
      List.map_cons, List.map_nil, Function.comp]
    rfl
  · rw [sseEventList, List.filter_append, List.filter_append, filter_delta_map]
    simp [List.filter, isTextDelta]
  · rw [sseEventList, List.filter_append, List.filter_append, filter_nondelta_map]
    simp [List.filter, isTextDelta]
  · simp [handleBucket, selectMockIdx, scanMocks, streamRec, MockRecord.matcherOf,
      MockRecord.onceOf, MockRecord.errorOf, respondWith, resolveValue, hj]

/-- C4 counterexample: a winning streaming record with a structured
(non-string) value is answered with a plain JSON body — no content-type
header (so not an event-stream media type) and no data/`[DONE]` event
framing, contrary to the claim. -/
theorem streaming_nonstring_counterexample :
    (handleBucket [streamRec (.num 5)] reqLlm).1 = Outcome.fulfilled 200 none "5"
    ∧ ((none : Option String) == some "text/event-stream") = false
    ∧ strContains "5" "data:" = false
    ∧ strContains "5" "[DONE]" = false := by
  decide

/-- Witness for `streaming_format_law` at a concrete input. -/
theorem streaming_format_law_witness :
    (Json.num 5).isStr = false
    ∧ ((handleBucket [streamRec (.str "ab")] reqLlm).1
        = Outcome.fulfilled 200 (some "text/event-stream") (formatAsSSE "ab")
      ∧ formatAsSSE "ab" = String.join ((sseEventList "ab").map sseRender)
      ∧ ((sseEventList "ab").filter isTextDelta).length = String.length "ab"
      ∧ (sseEventList "ab").filter (fun e => !isTextDelta e)
          = [.start, .textStart, .textEnd, .finish, .done]
      ∧ (handleBucket [streamRec (.num 5)] reqLlm).1
          = Outcome.fulfilled 200 none (Json.stringify (.num 5))) :=
  ⟨by decide, streaming_format_law "ab" (.num 5) reqLlm (by decide)⟩

/-! ## C5 — failure semantics of unmocked and unmatched routes -/

/-- C5: both failure cases are hard failures, never a fulfilled (silent
default) response: a missing — or empty — bucket throws the
`No route handler found` error, and a non-empty bucket in which nothing
was selected aborts the request with the `not_found` network error. -/
theorem unmocked_routes_fail_hard (routes : RouteTable) (req : Req) :
    ((lookupA routes (createRouteKey req) = none
        ∨ lookupA routes (createRouteKey req) = some []) →
      (handleRoute routes req).1
          = Outcome.thrown ("No route handler found for route: " ++ createRouteKey req)
      ∧ (handleRoute routes req).1.isFulfilled = false)
    ∧ (∀ mocks, lookupA routes (createRouteKey req) = some mocks → mocks ≠ [] →
        selectMock mocks req = none →
        (handleRoute routes req).1 = Outcome.aborted "not_found"
        ∧ (handleRoute routes req).1.isFulfilled = false) := by
  constructor
  · intro hcase
    rcases hcase with hnone | hempty
    · simp [handleRoute, hnone, Outcome.isFulfilled]
    · simp [handleRoute, hempty, List.isEmpty, Outcome.isFulfilled]
  · intro mocks hsome hne hsel
    have hidx : selectMockIdx mocks req = none := by
      unfold selectMock at hsel
      exact Option.map_eq_none'.mp hsel
    have hbucket : handleBucket mocks req = (Outcome.aborted "not_found", mocks) := by
      simp [handleBucket, hidx]
    have hemp : mocks.isEmpty = false := by
      cases mocks with
      | nil => exact absurd rfl hne
      | cons a l => rfl
    simp [handleRoute, hsome, hemp, hbucket, Outcome.isFulfilled]

/-- A record whose matcher rejects every request. -/
def neverRec : MockRecord :=
  { value := .static (.str "unused")
    method := .POST
    options := some { matcher := some fun _ => some false } }

/-- Witness for `unmocked_routes_fail_hard`: an empty table throws, and a
bucket whose only record never matches (no fallback) aborts. -/
theorem unmocked_routes_fail_hard_witness :
    (handleRoute ([] : RouteTable) reqLlm).1
        = Outcome.thrown ("No route handler found for route: " ++ createRouteKey reqLlm)
    ∧ (handleRoute [(createRouteKey reqLlm, [neverRec])] reqLlm).1
        = Outcome.aborted "not_found" :=
  ⟨((unmocked_routes_fail_hard [] reqLlm).1 (Or.inl rfl)).1,
   ((unmocked_routes_fail_hard [(createRouteKey reqLlm, [neverRec])] reqLlm).2
      [neverRec] rfl (by simp) rfl).1⟩

/-! ## C6 — insert merge law of the Settings State Source -/

/-- Modelled on the spec's wording of the merge law: the prior state's
fields overridden by every key present in the update. -/
def overrideFields (prior upd : PluginSettings) : PluginSettings where
  id := match upd.id with | some v => some v | none => prior.id
  plugin_id := match upd.plugin_id with | some v => some v | none => prior.plugin_id
  guild_id := match upd.guild_id with | some v => some v | none => prior.guild_id
  settings := match upd.settings with | some v => some v | none => prior.settings
  is_guild_setting :=
    match upd.is_guild_setting with | some v => some v | none => prior.is_guild_setting
  user_id := match upd.user_id with | some v => some v | none => prior.user_id

theorem spread_eq_override (a b : PluginSettings) :
    spreadSettings a b = overrideFields a b := by
  cases b with
  | mk id pid gid st igs uid =>
    cases id <;> cases pid <;> cases gid <;> cases st <;> cases igs <;> cases uid <;> rfl

/-- C6 (amended): `insert(partial)` followed by `get()` returns the prior
state's fields overridden by every key present in the partial — the
identity fields included: unlike `update`, `insert` does not protect them,
so they are unchanged precisely when the partial omits them. -/
theorem insert_merge_law (prior upd : PluginSettings) :
    getSettings (insertSettings (some prior) upd).2 = some (overrideFields prior upd)
    ∧ (insertSettings (some prior) upd).1 = overrideFields prior upd
    ∧ (upd.id = none → (overrideFields prior upd).id = prior.id)
    ∧ (upd.plugin_id = none → (overrideFields prior upd).plugin_id = prior.plugin_id)
    ∧ (upd.guild_id = none → (overrideFields prior upd).guild_id = prior.guild_id) := by
  have h := spread_eq_override prior upd
  refine ⟨by simp [getSettings, insertSettings, h], by simp [insertSettings, h],
    ?_, ?_, ?_⟩
  · intro h'; simp [overrideFields, h']
  · intro h'; simp [overrideFields, h']
  · intro h'; simp [overrideFields, h']

/-- C6 counterexample: inserting a partial that carries the `id` key
overwrites the identity field, contrary to the claim that identity fields
are left unchanged by `insert`. -/
theorem insert_overwrites_identity_counterexample :
    (getSettings (insertSettings (constructSettings none "plug" "guild")
        { id := some "other-id" }).2).bind (·.id) = some "other-id"
    ∧ (getSettings (constructSettings none "plug" "guild")).bind (·.id)
        = some "settings-id"
    ∧ ((some "other-id" : Option String) == some "settings-id") = false := by
  refine ⟨rfl, rfl, by decide⟩

/-- Witness for `insert_merge_law` at a concrete input. -/
theorem insert_merge_law_witness :
    getSettings (insertSettings (some { id := some "a" }) ({} : PluginSettings)).2
        = some (overrideFields { id := some "a" } {})
    ∧ (overrideFields { id := some "a" } ({} : PluginSettings)).id
        = ({ id := some "a" } : PluginSettings).id :=
  ⟨(insert_merge_law { id := some "a" } {}).1,
   (insert_merge_law { id := some "a" } {}).2.2.1 rfl⟩

/-! ## C7 — initial state of the Settings State Source -/

/-- C7 counterexample: constructed without an explicit initial value
(`null`), the source still starts in a present (non-null) state, so
`get()` does not return `null`. -/
theorem construct_without_initial_counterexample :
    (getSettings (constructSettings none "plugin-x" "guild-y")).isSome = true := by
  rfl

/-- C7 (amended): constructed without an explicit initial value, the
source starts in a present state holding the default record — id
`settings-id`, the construction-time plugin and guild ids, empty
settings, `is_guild_setting` false and a null `user_id`; indeed every
construction yields a present state, and only `setSettings(null)` puts
the source into the absent state. -/
theorem construct_default_record (p g : String) (init : Option PluginSettings) :
    getSettings (constructSettings none p g)
      = some { id := some "settings-id", plugin_id := some p, guild_id := some g,
               settings := some [], is_guild_setting := some false,
               user_id := some none }
    ∧ (getSettings (constructSettings init p g)).isSome = true
    ∧ getSettings (setSettingsState (constructSettings init p g) none) = none := by
  refine ⟨rfl, ?_, rfl⟩
  cases init <;> rfl

/-! ## C8 — FIFO queueing of pre-readiness emissions -/

/-- A sequence of `emit` calls, one per listed message. -/
def emitAll (st : ChanState) (l : List OutMsg) : ChanState :=
  l.foldl (fun s m => emitMsg s m.topic m.data m.sender) st

theorem emitAll_not_ready (l : List OutMsg) :
    ∀ st : ChanState, st.ready = false →
      emitAll st l = { st with pending := st.pending ++ l } := by
  induction l with
  | nil => intro st h; simp [emitAll]
  | cons m rest ih =>
    intro st h
    have hstep : emitMsg st m.topic m.data m.sender
        = { st with pending := st.pending ++ [m] } := by
      simp [emitMsg, h]
    simp only [emitAll, List.foldl] at *
    rw [hstep, ih _ (by simp [h])]
    simp

theorem emitAll_ready (l : List OutMsg) :
    ∀ st : ChanState, st.ready = true →
      emitAll st l = { st with sent := st.sent ++ l } := by
  induction l with
  | nil => intro st h; simp [emitAll]
  | cons m rest ih =>
    intro st h
    have hstep : emitMsg st m.topic m.data m.sender
        = { st with sent := st.sent ++ [m] } := by
      simp [emitMsg, h]
    simp only [emitAll, List.foldl] at *
    rw [hstep, ih _ (by simp [h])]
    simp

/-- C8: every `emit` issued before readiness lands in the pending queue
(nothing is sent); entering Ready flushes the queue in issue order, and
every `emit` issued after readiness is delivered after the flushed
queue — so the channel sees exactly the pre-readiness messages in FIFO
order followed by the post-readiness ones. -/
theorem pending_queue_fifo (pre post : List OutMsg) :
    (emitAll {} pre).pending = pre
    ∧ (emitAll {} pre).sent = []
    ∧ (emitAll (setupChannel (emitAll {} pre)) post).sent = pre ++ post
    ∧ (emitAll (setupChannel (emitAll {} pre)) post).pending = [] := by
  have h1 : emitAll {} pre = { ready := false, pending := pre, sent := [] } := by
    rw [emitAll_not_ready pre {} rfl]; rfl
  have h2 : setupChannel (emitAll {} pre)
      = { ready := true, pending := [], sent := pre } := by
    rw [h1]; simp [setupChannel]
  have h3 : emitAll (setupChannel (emitAll {} pre)) post
      = { ready := true, pending := [], sent := pre ++ post } := by
    rw [h2, emitAll_ready post _ rfl]
  exact ⟨by rw [h1], by rw [h1], by rw [h3], by rw [h3]⟩

/-! ## Association-list lemmas for the listener/responder maps -/

/-- The keys of an association list. -/
def keysOf {α : Type} (l : List (String × α)) : List String := l.map (·.1)

theorem lookupA_setA_self {α : Type} (l : List (String × α)) (k : String) (v : α) :
    lookupA (setA l k v) k = some v := by
  induction l with
  | nil => simp [setA, lookupA, List.find?]
  | cons p rest ih =>
    obtain ⟨k', v'⟩ := p
    cases h : (k' == k) with
    | true => simp [setA, h, lookupA, List.find?]
    | false =>
      simp only [setA, h, Bool.false_eq_true, if_false]
      simp only [lookupA, List.find?, h] at ih ⊢
      exact ih

theorem lookupA_none_of_not_mem {α : Type} (l : List (String × α)) (k : String)
    (h : k ∉ keysOf l) : lookupA l k = none := by
  induction l with
  | nil => rfl
  | cons p rest ih =>
    obtain ⟨k', v'⟩ := p
    simp only [keysOf, List.map_cons, List.mem_cons, not_or] at h
    have hb : (k' == k) = false := by
      simp only [beq_eq_false_iff_ne, ne_eq]
      intro hk; exact h.1 hk.symm
    simp only [lookupA, List.find?, hb]
    exact ih (by simpa [keysOf] using h.2)

theorem mem_keysOf_setA {α : Type} (l : List (String × α)) (k : String) (v : α)
    (x : String) (hx : x ∈ keysOf (setA l k v)) : x = k ∨ x ∈ keysOf l := by
  induction l with
  | nil => simpa [setA, keysOf] using hx
  | cons p rest ih =>
    obtain ⟨k', v'⟩ := p
    cases h : (k' == k) with
    | true =>
      rw [setA] at hx
      simp only [h, if_true] at hx
      simp only [keysOf, List.map_cons, List.mem_cons] at hx ⊢
      tauto
    | false =>
      rw [setA] at hx
      simp only [h, Bool.false_eq_true, if_false] at hx
      simp only [keysOf, List.map_cons, List.mem_cons] at hx ⊢
      rcases hx with hx | hx
      · tauto
      · rcases ih hx with h1 | h1 <;> tauto

theorem nodup_keysOf_setA {α : Type} (l : List (String × α)) (k : String) (v : α)
    (h : (keysOf l).Nodup) : (keysOf (setA l k v)).Nodup := by
  induction l with
  | nil => simp [setA, keysOf]
  | cons p rest ih =>
    obtain ⟨k', v'⟩ := p
    simp only [keysOf, List.map_cons, List.nodup_cons] at h
    cases hb : (k' == k) with
    | true =>
      have hk : k' = k := by simpa using hb
      rw [setA]
      simp only [hb, if_true, keysOf, List.map_cons, List.nodup_cons]
      exact ⟨by rw [← hk]; exact h.1, h.2⟩
    | false =>
      have hk : k' ≠ k := by simpa using hb
      rw [setA]
      simp only [hb, Bool.false_eq_true, if_false, keysOf, List.map_cons,
        List.nodup_cons]
      refine ⟨?_, ih h.2⟩
      intro hmem
      rcases mem_keysOf_setA rest k v k' hmem with h1 | h1
      · exact hk h1
      · exact h.1 h1

theorem lookupA_removeA_self {α : Type} (l : List (String × α)) (k : String)
    (h : (keysOf l).Nodup) : lookupA (removeA l k) k = none := by
  induction l with
  | nil => rfl
  | cons p rest ih =>
    obtain ⟨k', v'⟩ := p
    simp only [keysOf, List.map_cons, List.nodup_cons] at h
    cases hb : (k' == k) with
    | true =>
      have hk : k' = k := by simpa using hb
      rw [removeA]
      simp only [hb, if_true]
      exact lookupA_none_of_not_mem rest k (by rw [← hk]; exact h.1)
    | false =>
      rw [removeA]
      simp only [hb, Bool.false_eq_true, if_false, lookupA, List.find?, hb]
      exact ih h.2

/-! ## C9 — auto-responder lifecycles -/

theorem handleInbound_inert (st : SimState) (e : InMsg)
    (hl : st.listeners = []) (hr : lookupA st.responders e.topic = none) :
    handleInbound st e = st := by
  have hd : dispatchEvent st e = st := by
    unfold dispatchEvent
    rw [hl]
    rfl
  unfold handleInbound
  rw [hd]
  unfold maybeRespond
  cases he : e.eventId with
  | none => rfl
  | some id =>
    by_cases h0 : id = 0
    · simp [h0]
    · simp [h0, hr]

theorem handleAll_inert (es : List InMsg) (T : String) :
    ∀ st : SimState, st.listeners = [] → lookupA st.responders T = none →
      (∀ x ∈ es, x.topic = T) → handleAll st es = st := by
  induction es with
  | nil => intro st _ _ _; rfl
  | cons e rest ih =>
    intro st hl hr hT
    have he : e.topic = T := hT e (by simp)
    have hstep : handleInbound st e = st :=
      handleInbound_inert st e hl (by rw [he]; exact hr)
    simp only [handleAll, List.foldl] at *
    rw [hstep]
    exact ih st hl hr (fun x hx => hT x (by simp [hx]))

theorem handleInbound_persistent (st : SimState) (e : InMsg) (T : String)
    (f : InMsg → Json) (n : Nat)
    (hl : st.listeners = []) (hr : lookupA st.responders T = some (.persistentR f))
    (he : e.topic = T) (hn : e.eventId = some n) (hn0 : n ≠ 0) :
    handleInbound st e = { st with responses := st.responses ++ [(n, T, f e)] } := by
  have hd : dispatchEvent st e = st := by
    unfold dispatchEvent
    rw [hl]
    rfl
  unfold handleInbound
  rw [hd]
  unfold maybeRespond
  rw [hn, he]
  simp [hn0, hr, he]

theorem handleAll_persistent (es : List InMsg) (T : String) (f : InMsg → Json) :
    ∀ st : SimState, st.listeners = [] →
      lookupA st.responders T = some (.persistentR f) →
      (∀ x ∈ es, x.topic = T) →
      (∀ x ∈ es, ∃ k, x.eventId = some k ∧ k ≠ 0) →
      handleAll st es
        = { st with responses :=
              st.responses ++ es.map (fun x => (x.eventId.getD 0, T, f x)) } := by
  induction es with
  | nil => intro st _ _ _ _; simp [handleAll]
  | cons e rest ih =>
    intro st hl hr hT hId
    obtain ⟨n, hn, hn0⟩ := hId e (by simp)
    have hstep := handleInbound_persistent st e T f n hl hr (hT e (by simp)) hn hn0
    simp only [handleAll, List.foldl] at *
    rw [hstep]
    rw [ih { st with responses := st.responses ++ [(n, T, f e)] } hl hr
        (fun x hx => hT x (by simp [hx])) (fun x hx => hId x (by simp [hx]))]
    simp [hn]

/-- C9 (amended): for every topic `T`, a `respondOnce(T, ·)` responder is
invoked exactly once across any number of inbound `T` events carrying a
nonzero `eventId` — only the first such event receives a correlated
response, after which the responder is removed — while a `respond(T, ·)`
responder is invoked for every such inbound event until its returned
remove function is called, after which no further event is answered.
(The engine tests the id for truthiness, so an event whose `eventId` is
`0` is never answered — hence the nonzero qualification.) -/
theorem responder_lifecycles (T : String) (f : InMsg → Json) (info ui : Json)
    (e : InMsg) (es more : List InMsg) (n : Nat)
    (he : e.topic = T) (hn : e.eventId = some n) (hn0 : n ≠ 0)
    (hoT : ∀ x ∈ es, x.topic = T)
    (hoId : ∀ x ∈ es, ∃ k, x.eventId = some k ∧ k ≠ 0)
    (hmT : ∀ x ∈ more, x.topic = T) :
    (handleAll (registerRespondOnce (initSimState info ui) T f) (e :: es)).responses
        = [(n, T, f e)]
    ∧ lookupA (handleAll (registerRespondOnce (initSimState info ui) T f)
          (e :: es)).responders T = none
    ∧ (handleAll (registerRespond (initSimState info ui) T f) (e :: es)).responses
        = (e :: es).map (fun x => (x.eventId.getD 0, T, f x))
    ∧ (handleAll (removeRespond
          (handleAll (registerRespond (initSimState info ui) T f) (e :: es)) T)
          more).responses
        = (e :: es).map (fun x => (x.eventId.getD 0, T, f x)) := by
  have hnodup : (keysOf (initSimState info ui).responders).Nodup := by
    simp [initSimState, keysOf]
  have hafterOnce : lookupA (removeA (setA (initSimState info ui).responders T
      (Responder.onceR f)) T) T = none :=
    lookupA_removeA_self _ T (nodup_keysOf_setA _ T _ hnodup)
  -- one-shot part
  have honce : handleAll (registerRespondOnce (initSimState info ui) T f) (e :: es)
      = { listeners := []
          responders := removeA (setA (initSimState info ui).responders T (.onceR f)) T
          invoked := []
          responses := [(n, T, f e)] } := by
    have hr0 : lookupA (registerRespondOnce (initSimState info ui) T f).responders T
        = some (.onceR f) := lookupA_setA_self _ T _
    have hstep : handleInbound (registerRespondOnce (initSimState info ui) T f) e
        = { listeners := []
            responders := removeA (setA (initSimState info ui).responders T (.onceR f)) T
            invoked := []
            responses := [(n, T, f e)] } := by
      have hd : dispatchEvent (registerRespondOnce (initSimState info ui) T f) e
          = registerRespondOnce (initSimState info ui) T f := by
        unfold dispatchEvent
        have hemp : (registerRespondOnce (initSimState info ui) T f).listeners = [] := rfl
        rw [hemp]
        rfl
      unfold handleInbound
      rw [hd]
      unfold maybeRespond
      rw [hn]
      dsimp only
      rw [if_neg hn0, he, hr0]
      simp [registerRespondOnce, initSimState]
    show handleAll _ (e :: es) = _
    simp only [handleAll, List.foldl]
    rw [hstep]
    exact handleAll_inert es T _ rfl hafterOnce hoT
  -- persistent part
  have hrP : lookupA (registerRespond (initSimState info ui) T f).responders T
      = some (.persistentR f) := lookupA_setA_self _ T _
  have hpers : handleAll (registerRespond (initSimState info ui) T f) (e :: es)
      = { registerRespond (initSimState info ui) T f with
          responses := (e :: es).map (fun x => (x.eventId.getD 0, T, f x)) } := by
    have hacc := handleAll_persistent (e :: es) T f
      (registerRespond (initSimState info ui) T f) rfl hrP
      (by intro x hx
          rcases List.mem_cons.mp hx with rfl | hx
          · exact he
          · exact hoT x hx)
      (by intro x hx
          rcases List.mem_cons.mp hx with rfl | hx
          · exact ⟨n, hn, hn0⟩
          · exact hoId x hx)
    simpa using hacc
  -- removal part
  have hafterP : lookupA (removeRespond
      (handleAll (registerRespond (initSimState info ui) T f) (e :: es)) T).responders T
      = none := by
    rw [hpers]
    exact lookupA_removeA_self _ T (nodup_keysOf_setA _ T _ hnodup)
  have hlP : (removeRespond
      (handleAll (registerRespond (initSimState info ui) T f) (e :: es)) T).listeners
      = [] := by
    rw [hpers]
    rfl
  refine ⟨?_, ?_, ?_, ?_⟩
  · rw [honce]
  · rw [honce]
    exact hafterOnce
  · rw [hpers]
  · rw [handleAll_inert more T _ hlP hafterP hmT, hpers]
    rfl

/-- The concrete topic used by the responder examples. -/
def topicMain : String := "pl123.action.requestMain"

/-- The concrete responder payload used by the responder examples. -/
def respPayload : InMsg → Json := fun _ => .obj [("action", .str "open")]

/-- C9 counterexample: an inbound event that carries the `eventId` `0` is
never answered — the engine tests the id for truthiness — so a one-shot
responder is invoked zero times, not exactly once, across such events. -/
theorem responder_zero_eventId_counterexample :
    (handleAll (registerRespondOnce (initSimState .null .null) topicMain respPayload)
        [{ topic := topicMain, data := .null, eventId := some 0 }]).responses.length = 0
    ∧ ((0 : Nat) == 1) = false := by
  exact ⟨rfl, by decide⟩

/-- Witness for `responder_lifecycles` at a concrete input. -/
theorem responder_lifecycles_witness :
    ({ topic := topicMain, data := .null, eventId := some 5 } : InMsg).topic = topicMain
    ∧ ({ topic := topicMain, data := .null, eventId := some 5 } : InMsg).eventId = some 5
    ∧ (5 : Nat) ≠ 0
    ∧ ((handleAll (registerRespondOnce (initSimState .null .null) topicMain respPayload)
          [{ topic := topicMain, data := .null, eventId := some 5 },
           { topic := topicMain, data := .null, eventId := some 6 }]).responses
        = [(5, topicMain, respPayload { topic := topicMain, data := .null, eventId := some 5 })]
      ∧ lookupA (handleAll (registerRespondOnce (initSimState .null .null) topicMain respPayload)
            [{ topic := topicMain, data := .null, eventId := some 5 },
             { topic := topicMain, data := .null, eventId := some 6 }]).responders topicMain
          = none
      ∧ (handleAll (registerRespond (initSimState .null .null) topicMain respPayload)
            [{ topic := topicMain, data := .null, eventId := some 5 },
             { topic := topicMain, data := .null, eventId := some 6 }]).responses
          = ([{ topic := topicMain, data := .null, eventId := some 5 },
              { topic := topicMain, data := .null, eventId := some 6 }] : List InMsg).map
              (fun x => (x.eventId.getD 0, topicMain, respPayload x))
      ∧ (handleAll (removeRespond
            (handleAll (registerRespond (initSimState .null .null) topicMain respPayload)
              [{ topic := topicMain, data := .null, eventId := some 5 },
               { topic := topicMain, data := .null, eventId := some 6 }]) topicMain)
            [{ topic := topicMain, data := .null, eventId := some 7 }]).responses
          = ([{ topic := topicMain, data := .null, eventId := some 5 },
              { topic := topicMain, data := .null, eventId := some 6 }] : List InMsg).map
              (fun x => (x.eventId.getD 0, topicMain, respPayload x))) :=
  ⟨rfl, rfl, by decide,
   responder_lifecycles topicMain respPayload .null .null
     { topic := topicMain, data := .null, eventId := some 5 }
     [{ topic := topicMain, data := .null, eventId := some 6 }]
     [{ topic := topicMain, data := .null, eventId := some 7 }] 5
     rfl rfl (by decide)
     (by intro x hx
         rw [List.mem_singleton] at hx
         subst hx
         rfl)
     (by intro x hx
         rw [List.mem_singleton] at hx
         subst hx
         exact ⟨6, rfl, by decide⟩)
     (by intro x hx
         rw [List.mem_singleton] at hx
         subst hx
         rfl)⟩

/-! ## C10 — listener deduplication by reference -/

/-- C10: registering the same handler twice for a topic leaves a single
registration (the `Set` deduplicates by reference): the topic maps to
exactly one copy of the handler, an inbound event for the topic invokes it
exactly once, and one invocation of an unsubscribe handle (the two handles
returned perform the identical removal) removes the handler — and with it
the topic — entirely. -/
theorem listener_dedup (T : String) (h : Nat) (d : Json) (info ui : Json) :
    lookupA (onReg (onReg (initSimState info ui) T h) T h).listeners T = some [h]
    ∧ (handleInbound (onReg (onReg (initSimState info ui) T h) T h)
        { topic := T, data := d, eventId := none }).invoked = [h]
    ∧ lookupA (unsubscribe (onReg (onReg (initSimState info ui) T h) T h) T h).listeners T
        = none := by
  have h1 : (onReg (initSimState info ui) T h).listeners = [(T, [h])] := by
    simp [onReg, initSimState, lookupA, List.find?, setA]
  have h2 : (onReg (onReg (initSimState info ui) T h) T h).listeners = [(T, [h])] := by
    simp [onReg, h1, lookupA, List.find?, setA]
  refine ⟨?_, ?_, ?_⟩
  · simp [h2, lookupA, List.find?]
  · unfold handleInbound
    have hdisp : dispatchEvent (onReg (onReg (initSimState info ui) T h) T h)
        { topic := T, data := d, eventId := none }
        = { onReg (onReg (initSimState info ui) T h) T h with invoked := [h] } := by
      unfold dispatchEvent
      rw [h2]
      simp [lookupA, List.find?]
      exact ⟨h2.symm, rfl⟩
    rw [hdisp]
    rfl
  · unfold unsubscribe
    rw [h2]
    simp [lookupA, List.find?, List.erase, removeA]

end Rimori
